import Mathlib

/-!
Verification of the OpenSprinkler-Weather hybrid watering engine.

The definitions below are a shallow embedding of the TypeScript sources:

* `src/routes/weatherProviders/local.ts` — PWS push ingest (`captureWUStream`),
  the current-weather view (`getWeatherDataInternal`) and the per-day
  aggregation (`getWateringDataInternal`) of the local provider.
* `src/routes/weatherProviders/hybrid-providers/BaseHybridProvider.ts` —
  the hybrid composition of local and forecast watering data.
* `src/routes/weatherProviders/hybrid-providers/HybridOpenMeteoProvider.ts` —
  the OpenMeteo forecast conversion and the future-day filter.
* `src/routes/weatherProviders/hybrid.ts` — the registry-based hybrid provider
  (`getWateringDataWithForecastProvider`).

JavaScript numbers are modelled as rationals (`ℚ`), epoch timestamps as
integers (`ℤ`), and absent (`undefined`) fields as `Option`.  `Math.floor`
becomes `Int.floor` on `ℚ`.  Time-zone resolution (`localTime`, `startOfDay`
of date-fns) lives in `src/routes/weather.ts`, which is not part of the
sources; day boundaries are therefore passed in as explicit epoch parameters,
and the calendar-day notion is modelled from the spec as a fixed UTC-offset
zone (§4.7 TimeZoneResolver).
-/

namespace OSWeather

/-- A raw PWS sample, `interface Observation` of `local.ts`: every measurement
field may be `undefined`. -/
structure Observation where
  timestamp : ℤ
  temp : Option ℚ
  humidity : Option ℚ
  windSpeed : Option ℚ
  solarRadiation : Option ℚ
  precip : Option ℚ
  deriving DecidableEq, Repr

/-- One element of the combined series, `WateringData` of `types.ts` as
produced by the local aggregator and the forecast conversions: solar and wind
may be absent, the remaining metrics are always present on an emitted day. -/
structure WateringData where
  weatherProvider : String
  periodStartTime : ℤ
  temp : ℚ
  humidity : ℚ
  precip : ℚ
  minTemp : ℚ
  maxTemp : ℚ
  minHumidity : ℚ
  maxHumidity : ℚ
  solarRadiation : Option ℚ
  windSpeed : Option ℚ
  deriving DecidableEq, Repr

/-- Modelled from the spec: error kinds of §7.  The errors module
(`errors.ts`) is not among the sources; the code under `src/` names
`ErrorCode.InsufficientWeatherData`, and §7 also lists `InvalidProvider`. -/
inductive ErrorCode where
  | insufficientWeatherData
  | invalidProvider
  deriving DecidableEq, Repr

/-- One day of the upstream forecast array, `WeatherDataForecast` of
`types.ts`: minimum and maximum temperature, precipitation and the day's
timestamp (plus display-only icon and description). -/
structure WeatherDataForecast where
  temp_min : ℚ
  temp_max : ℚ
  precip : ℚ
  date : ℤ
  icon : String
  description : String
  deriving DecidableEq, Repr

/-- The current-weather view, the fields of `WeatherData` of `types.ts` that
`local.ts` fills in `getWeatherDataInternal` (display-only fields omitted
there are kept as written: description, icon). -/
structure CurrentWeather where
  weatherProvider : String
  temp : Option ℤ
  humidity : Option ℤ
  wind : Option ℚ
  raining : Bool
  precip : ℚ
  deriving DecidableEq, Repr

/-! ## RainCounter: the stateful delta inside `captureWUStream` (`local.ts`)

The third and current revision of `captureWUStream` computes, with
`lastRainCount` initialized to `0`:

    let precip;
    if (typeof rainCount === "number" && typeof lastRainCount === "number") {
      precip = rainCount < lastRainCount ? rainCount : rainCount - lastRainCount;
    } else if (typeof rainCount === "number") { precip = rainCount; }
    ...
    if (typeof rainCount === "number") { lastRainCount = rainCount; }

Since `lastRainCount` always holds a number, the second branch is dead. -/

/-- The `intervalRain` recorded for one push: absent when `dailyrainin` is
absent, otherwise the reset-aware delta against `lastRainCount`. -/
def rainDelta (lastRainCount : ℚ) (rainCount : Option ℚ) : Option ℚ :=
  match rainCount with
  | some r => some (if r < lastRainCount then r else r - lastRainCount)
  | none => none

/-- The `lastRainCount` state after one push: updated only when `dailyrainin`
was present. -/
def nextRainCount (lastRainCount : ℚ) (rainCount : Option ℚ) : ℚ :=
  match rainCount with
  | some r => r
  | none => lastRainCount

/-- Folding `captureWUStream` over a sequence of pushed `dailyrainin` values:
returns the recorded `intervalRain` of each push and the final state. -/
def processRains (lastRainCount : ℚ) : List (Option ℚ) → List (Option ℚ) × ℚ
  | [] => ([], lastRainCount)
  | rc :: rest =>
    let d := rainDelta lastRainCount rc
    let st := nextRainCount lastRainCount rc
    let tail := processRains st rest
    (d :: tail.1, tail.2)

/-- Sum of recorded `intervalRain` values, an absent value contributing 0. -/
def sumDeltas (ds : List (Option ℚ)) : ℚ :=
  (ds.map (fun d => d.getD 0)).sum

/-! ## Current-weather view: `getWeatherDataInternal` (`local.ts`) -/

/-- The 24-hour precipitation total of the current-weather view:
`Math.floor(sum * 100) / 100` over the `intervalRain` of the retained
samples, an absent `precip` contributing 0. -/
def precip24 (recentQueue : List Observation) : ℚ :=
  (⌊(recentQueue.map (fun o => o.precip.getD 0)).sum * 100⌋ : ℤ) / 100

/-- `LocalWeatherProvider.getWeatherDataInternal`: filters the queue to the
last 24 hours, fails when empty, otherwise reports the newest sample's
instantaneous values together with the truncated 24-hour rain total and the
`raining` flag derived from it. -/
def getWeatherDataLocal (queue : List Observation) (nowEpoch : ℤ) :
    Except String CurrentWeather :=
  let recentQueue := queue.filter (fun o => nowEpoch - o.timestamp < 24 * 60 * 60)
  match recentQueue with
  | [] => .error "There is insufficient data to support Weather response from local PWS."
  | latest :: _ =>
    let p := precip24 recentQueue
    .ok
      { weatherProvider := "local"
        temp := latest.temp.map (fun t => ⌊t⌋)
        humidity := latest.humidity.map (fun h => ⌊h⌋)
        wind := latest.windSpeed.map (fun w => ((⌊w * 10⌋ : ℤ) : ℚ) / 10)
        raining := decide (0 < p)
        precip := p }

/-! ## Day aggregation: `getWateringDataInternal` of `LocalWeatherProvider`
(`local.ts`, current revision)

Each JavaScript reduce over a day's samples is modelled on the list of
present values of the field: the counters `cTemp`, `cHumidity`, … count
samples whose field is a number, an average is the sum of present values
over that count, and the `Infinity`-seeded min/max folds are `Option`-valued
folds (`none` standing for the untouched `Infinity` seed).  date-fns
`subDays` on local-midnight instants is modelled as subtracting 86400
seconds (fixed-offset zone, the §4.7 model). -/

/-- Number of samples of a day whose given field is present (a counter
`cTemp`, `cHumidity`, `cSolar`, `cWind`, `cPrecip` of the source). -/
def countSome (f : Observation → Option ℚ) (dayObs : List Observation) : ℕ :=
  (dayObs.filter (fun o => (f o).isSome)).length

/-- Sum of the present values of a field over a day's samples. -/
def sumSome (f : Observation → Option ℚ) (dayObs : List Observation) : ℚ :=
  (dayObs.filterMap f).sum

/-- One step of the `Infinity`-seeded minimum fold of the source, `none`
standing for the seed: `(min, obs) => field present && min > v ? v : min`. -/
def minStep (f : Observation → Option ℚ) (m : Option ℚ) (o : Observation) : Option ℚ :=
  match f o, m with
  | some v, some m0 => some (if m0 > v then v else m0)
  | some v, none => some v
  | none, m0 => m0

/-- One step of the `-Infinity`-seeded maximum fold of the source, `none`
standing for the seed. -/
def maxStep (f : Observation → Option ℚ) (m : Option ℚ) (o : Observation) : Option ℚ :=
  match f o, m with
  | some v, some m0 => some (if m0 < v then v else m0)
  | some v, none => some v
  | none, m0 => m0

/-- The `Infinity`-seeded minimum fold of the source:
`dayObs.reduce((min, obs) => field present && min > v ? v : min, Infinity)`. -/
def foldMin (f : Observation → Option ℚ) (dayObs : List Observation) : Option ℚ :=
  dayObs.foldl (minStep f) none

/-- The `-Infinity`-seeded maximum fold of the source. -/
def foldMax (f : Observation → Option ℚ) (dayObs : List Observation) : Option ℚ :=
  dayObs.foldl (maxStep f) none

/-- One day bucket of `getWateringDataInternal`: `none` when the day has no
samples, or when a required metric is missing (no temperature sample, no
humidity sample, a non-finite min/max, or — as the current revision checks
with `!cWind` — no wind sample).  Solar is optional: `cSolar > 0 ? avgSolar :
undefined`.  Both the today block and the past-day loop of the source perform
exactly this computation. -/
def mkBucket (dayObs : List Observation) (dayStart : ℤ) : Option WateringData :=
  if dayObs.isEmpty then none
  else
    let cTemp := countSome (fun o => o.temp) dayObs
    let cHumidity := countSome (fun o => o.humidity) dayObs
    let cSolar := countSome (fun o => o.solarRadiation) dayObs
    let cWind := countSome (fun o => o.windSpeed) dayObs
    let avgTemp := sumSome (fun o => o.temp) dayObs / (cTemp : ℚ)
    let avgHum := sumSome (fun o => o.humidity) dayObs / (cHumidity : ℚ)
    let totalPrecip := sumSome (fun o => o.precip) dayObs
    let avgSolar := sumSome (fun o => o.solarRadiation) dayObs / (cSolar : ℚ)
    let avgWind := sumSome (fun o => o.windSpeed) dayObs / (cWind : ℚ)
    match foldMin (fun o => o.temp) dayObs, foldMax (fun o => o.temp) dayObs,
      foldMin (fun o => o.humidity) dayObs, foldMax (fun o => o.humidity) dayObs with
    | some minT, some maxT, some minH, some maxH =>
      if cTemp ≠ 0 ∧ cHumidity ≠ 0 ∧ cWind ≠ 0 then
        some
          { weatherProvider := "local"
            periodStartTime := dayStart
            temp := avgTemp
            humidity := avgHum
            precip := totalPrecip
            minTemp := minT
            maxTemp := maxT
            minHumidity := minH
            maxHumidity := maxH
            solarRadiation := if cSolar ≠ 0 then some avgSolar else none
            windSpeed := some avgWind }
      else none
    | _, _, _, _ => none

/-- The `for (let i = 0; i < 7; i++)` loop of `getWateringDataInternal`:
walks one day back per iteration, collects the samples of `[dayStart,
dayEnd)` and stops at the first empty or incomplete day (the current
revision breaks for every `i`, yesterday included). -/
def pastDays (filteredData : List Observation) : ℤ → ℕ → List WateringData
  | _, 0 => []
  | dayEnd, n + 1 =>
    let dayStart := dayEnd - 86400
    let dayObs := filteredData.filter
      (fun o => decide (dayStart ≤ o.timestamp ∧ o.timestamp < dayEnd))
    match mkBucket dayObs dayStart with
    | none => []
    | some b => b :: pastDays filteredData dayStart n

/-- `LocalWeatherProvider.getWateringDataInternal` (current revision):
span precondition on the raw queue, then today's partial bucket over
`[today00, now]` followed by the backwards per-day loop, with `today00` the
epoch of the caller's local midnight (the `startOfDay(localTime(coords))`
of the source). -/
def getWateringDataLocal (queue : List Observation) (today00 nowEpoch : ℤ) :
    Except ErrorCode (List WateringData) :=
  match queue.head?, queue.getLast? with
  | some first, some last =>
    if first.timestamp - last.timestamp < 23 * 60 * 60 then
      .error .insufficientWeatherData
    else
      let startTime := today00 - 7 * 86400
      let filteredData := queue.filter
        (fun o => decide (startTime ≤ o.timestamp ∧ o.timestamp ≤ nowEpoch))
      let todayObs := filteredData.filter
        (fun o => decide (today00 ≤ o.timestamp ∧ o.timestamp ≤ nowEpoch))
      let todayPart :=
        match mkBucket todayObs today00 with
        | some b => [b]
        | none => []
      .ok (todayPart ++ pastDays filteredData today00 7)
  | _, _ => .error .insufficientWeatherData

/-! ## Hybrid composition (`BaseHybridProvider.ts` and `hybrid.ts`) -/

/-- Newest-first comparison used by `combinedData.sort((a, b) =>
b.periodStartTime - a.periodStartTime)`. -/
def wdGE (a b : WateringData) : Prop :=
  b.periodStartTime ≤ a.periodStartTime

instance : DecidableRel wdGE := fun a b =>
  inferInstanceAs (Decidable (b.periodStartTime ≤ a.periodStartTime))

instance : IsTotal WateringData wdGE :=
  ⟨fun a b => le_total b.periodStartTime a.periodStartTime⟩

instance : IsTrans WateringData wdGE :=
  ⟨fun _ _ _ hab hbc => le_trans hbc hab⟩

/-- The descending sort of the combined series. -/
def sortDesc (l : List WateringData) : List WateringData :=
  List.insertionSort wdGE l

/-- `Math.max(...l.map(d => d.periodStartTime))`, used on a non-empty list. -/
def latestPeriod (l : List WateringData) : ℤ :=
  ((l.map (fun d => d.periodStartTime)).max?).getD 0

/-- `Math.min(...l.map(d => d.periodStartTime))`, used on a non-empty list. -/
def earliestPeriod (l : List WateringData) : ℤ :=
  ((l.map (fun d => d.periodStartTime)).min?).getD 0

/-- The overlap-removal step of both composers: when local data is available
and both sides are non-empty and the earliest forecast day does not lie
strictly after the latest historical day, drop every forecast day not
strictly after the latest historical day. -/
def removeOverlap (localDataAvailable : Bool)
    (historicalData forecastData : List WateringData) : List WateringData :=
  if localDataAvailable && !historicalData.isEmpty && !forecastData.isEmpty then
    let latestHistorical := latestPeriod historicalData
    let earliestForecast := earliestPeriod forecastData
    if earliestForecast ≤ latestHistorical then
      forecastData.filter (fun d => decide (latestHistorical < d.periodStartTime))
    else forecastData
  else forecastData

/-- `BaseHybridProvider.getWateringDataInternal`, as a function of the two
provider outcomes: the result of the local provider and the result of the
concrete subclass's `getForecastData` (which already filtered to future
days).  A caught exception is an `Except.error`; `localDataAvailable`
records a successful, non-empty local result. -/
def composeWateringBase (localRes forecastRes : Except ErrorCode (List WateringData)) :
    Except ErrorCode (List WateringData) :=
  let historicalData :=
    match localRes with
    | .ok l => if l.length > 0 then l else []
    | .error _ => []
  let localDataAvailable :=
    match localRes with
    | .ok l => decide (l.length > 0)
    | .error _ => false
  match forecastRes with
  | .error _ =>
    if !localDataAvailable then .error .insufficientWeatherData
    else .ok historicalData
  | .ok f =>
    let forecastData := removeOverlap localDataAvailable historicalData f
    let combinedData := historicalData ++ forecastData
    if combinedData.isEmpty then .error .insufficientWeatherData
    else .ok (sortDesc combinedData)

/-- `HybridWeatherProvider.getWateringDataWithForecastProvider`
(`hybrid.ts`), as a function of the local outcome and the provider registry.
The registry maps a provider tag to the outcome of that provider's forecast
fetch — for the `OpenMeteo` tag the source converts
`getWeatherDataInternal().forecast` through the mapping embedded below as
`convertOMDay`, for every other tag it calls `getWateringDataInternal`;
either way the fetch yields a watering-data list or throws.  An unknown tag
(`forecastProviders.get` returns `undefined`) falls back to local-only data,
or fails with `InsufficientWeatherData` when none is available. -/
def getWateringDataWithForecastProvider
    (localRes : Except ErrorCode (List WateringData))
    (forecastProviders : String → Option (Except ErrorCode (List WateringData)))
    (forecastProviderName : String) (currentDayEpoch : ℤ) :
    Except ErrorCode (List WateringData) :=
  let historicalData :=
    match localRes with
    | .ok l => if l.length > 0 then l else []
    | .error _ => []
  let localDataAvailable :=
    match localRes with
    | .ok l => decide (l.length > 0)
    | .error _ => false
  match forecastProviders forecastProviderName with
  | none =>
    if !localDataAvailable then .error .insufficientWeatherData
    else .ok historicalData
  | some fetchRes =>
    match fetchRes with
    | .error _ =>
      if !localDataAvailable then .error .insufficientWeatherData
      else .ok historicalData
    | .ok forecastResult =>
      let tomorrowEpoch := currentDayEpoch + 24 * 60 * 60
      let futureData := forecastResult.filter
        (fun d => decide (tomorrowEpoch ≤ d.periodStartTime))
      let forecastData := removeOverlap localDataAvailable historicalData futureData
      let combinedData := historicalData ++ forecastData
      if combinedData.isEmpty then .error .insufficientWeatherData
      else .ok (sortDesc combinedData)

/-! ## OpenMeteo forecast conversion (`HybridOpenMeteoProvider.ts`) -/

/-- The per-day conversion of the OpenMeteo forecast array to `WateringData`
(`HybridOpenMeteoProvider.getForecastData`, also inlined in `hybrid.ts`):
temperature is the min/max average, humidity receives the hard-coded
defaults 50/40/60, solar and wind are absent. -/
def convertOMDay (day : WeatherDataForecast) : WateringData :=
  { weatherProvider := "OpenMeteo"
    periodStartTime := day.date
    temp := (day.temp_min + day.temp_max) / 2
    minTemp := day.temp_min
    maxTemp := day.temp_max
    humidity := 50
    minHumidity := 40
    maxHumidity := 60
    precip := day.precip
    solarRadiation := none
    windSpeed := none }

/-- `HybridOpenMeteoProvider.getForecastData`: convert the upstream forecast
array and keep only entries with `periodStartTime >= tomorrowEpoch`. -/
def getForecastDataOM (forecast : List WeatherDataForecast) (currentDayEpoch : ℤ) :
    List WateringData :=
  (forecast.map convertOMDay).filter
    (fun d => decide (currentDayEpoch + 24 * 60 * 60 ≤ d.periodStartTime))

/-- Modelled from the spec: §4.7 TimeZoneResolver (`localTime` of
`weather.ts` is not among the sources).  In a fixed UTC-offset zone, the
local calendar day of an epoch instant is the floor of the offset-shifted
epoch by 86400 (integer division on `ℤ` is floor division for a positive
divisor). -/
def localCalendarDay (tzOffset e : ℤ) : ℤ :=
  (e + tzOffset) / 86400

/-- Modelled from the spec: §4.6 step 4 — the calendar-day forecast filter,
keeping exactly the days whose local calendar date is strictly after the
local calendar date of `now`. -/
def calendarDayFilterOM (forecast : List WeatherDataForecast)
    (tzOffset nowEpoch : ℤ) : List WateringData :=
  (forecast.map convertOMDay).filter
    (fun d => decide (localCalendarDay tzOffset nowEpoch <
      localCalendarDay tzOffset d.periodStartTime))

/-! ## Theorems -/

/-- Unfolding: the recorded deltas and final state of one push step. -/
theorem processRains_cons (st : ℚ) (rc : Option ℚ) (rest : List (Option ℚ)) :
    processRains st (rc :: rest) =
      ((rainDelta st rc) :: (processRains (nextRainCount st rc) rest).1,
        (processRains (nextRainCount st rc) rest).2) := rfl

theorem sumDeltas_cons (d : Option ℚ) (ds : List (Option ℚ)) :
    sumDeltas (d :: ds) = d.getD 0 + sumDeltas ds := by
  simp [sumDeltas]

/-- Over a monotone non-decreasing run the deltas telescope: starting the
counter at the first value, the recorded deltas sum to last minus first and
the final state is the last value. -/
theorem processRains_monotone (rs : List ℚ) :
    ∀ st : ℚ, (st :: rs).Chain' (· ≤ ·) →
      sumDeltas (processRains st (rs.map some)).1 = rs.getLastD st - st ∧
      (processRains st (rs.map some)).2 = rs.getLastD st := by
  induction rs with
  | nil => intro st _; simp [processRains, sumDeltas]
  | cons a rest ih =>
    intro st hchain
    have h1 : st ≤ a := (List.chain'_cons.mp hchain).1
    have h2 : (a :: rest).Chain' (· ≤ ·) := (List.chain'_cons.mp hchain).2
    have hrec := ih a h2
    simp only [List.map_cons, processRains_cons, sumDeltas_cons]
    have hdelta : rainDelta st (some a) = some (a - st) := by
      simp [rainDelta, not_lt.mpr h1]
    have hnext : nextRainCount st (some a) = a := rfl
    rw [hdelta, hnext, List.getLastD_cons]
    refine ⟨?_, hrec.2⟩
    rw [hrec.1]
    simp only [Option.getD_some]
    ring

/-- C2 — Rain-counter delta at ingest (`captureWUStream`, `local.ts`):
with `lastRainCount` initialized to 0 and a first pushed value `r ≥ 0`, the
first recorded `intervalRain` is `r` itself; over a monotone non-decreasing
run `r ≤ r1 ≤ … ≤ rk` the deltas after the first sum to `rk − r` and the
state ends at `rk`; a push `rNext < rk` immediately after the run records
`intervalRain = rNext`; and an absent `dailyrainin` records an absent
`intervalRain` and leaves the state unchanged. -/
theorem c2_rain_delta (r : ℚ) (rs : List ℚ)
    (hr : 0 ≤ r) (hchain : (r :: rs).Chain' (· ≤ ·)) :
    (processRains 0 ((r :: rs).map some)).1.head? = some (some r) ∧
    sumDeltas (processRains 0 ((r :: rs).map some)).1.tail = rs.getLastD r - r ∧
    (processRains 0 ((r :: rs).map some)).2 = rs.getLastD r ∧
    (∀ rNext : ℚ, rNext < rs.getLastD r →
      rainDelta (processRains 0 ((r :: rs).map some)).2 (some rNext) = some rNext) ∧
    (∀ st : ℚ, rainDelta st none = none ∧ nextRainCount st none = st) := by
  have hdelta0 : rainDelta 0 (some r) = some r := by
    simp [rainDelta, not_lt.mpr hr]
  have hnext0 : nextRainCount 0 (some r) = r := rfl
  have hmain := processRains_monotone rs r hchain
  have hPR : processRains 0 ((r :: rs).map some) =
      (some r :: (processRains r (rs.map some)).1, (processRains r (rs.map some)).2) := by
    rw [List.map_cons, processRains_cons, hdelta0, hnext0]
  refine ⟨?_, ?_, ?_, ?_, fun st => ⟨rfl, rfl⟩⟩
  · rw [hPR]
    rfl
  · rw [hPR, List.tail_cons]
    exact hmain.1
  · rw [hPR]
    exact hmain.2
  · intro rNext hlt
    rw [hPR]
    show rainDelta (processRains r (rs.map some)).2 (some rNext) = some rNext
    rw [hmain.2]
    show some (if rNext < rs.getLastD r then rNext else rNext - rs.getLastD r) = some rNext
    rw [if_pos hlt]

/-- Witness for C2 at the spec's scenario S1: pushes 0.10, 0.15, then the
hypotheses for a monotone prefix of length two. -/
theorem c2_rain_delta_witness :
    (processRains 0 (([(1 : ℚ)/10, 15/100]).map some)).1.head? = some (some ((1 : ℚ)/10)) ∧
    sumDeltas (processRains 0 (([(1 : ℚ)/10, 15/100]).map some)).1.tail =
      ([(15 : ℚ)/100]).getLastD (1/10) - 1/10 ∧
    (processRains 0 (([(1 : ℚ)/10, 15/100]).map some)).2 = ([(15 : ℚ)/100]).getLastD (1/10) ∧
    (∀ rNext : ℚ, rNext < ([(15 : ℚ)/100]).getLastD (1/10) →
      rainDelta (processRains 0 (([(1 : ℚ)/10, 15/100]).map some)).2 (some rNext) = some rNext) ∧
    (∀ st : ℚ, rainDelta st none = none ∧ nextRainCount st none = st) :=
  c2_rain_delta (1/10) [15/100] (by norm_num) (by norm_num [List.chain'_cons])

/-- C5 — Span precondition (`getWateringDataInternal`, `local.ts`): an empty
store, or a head-to-tail span below 23 hours, fails with
`InsufficientWeatherData`. -/
theorem c5_span_precondition (queue : List Observation) (today00 nowEpoch : ℤ)
    (h : queue = [] ∨ ∃ first last, queue.head? = some first ∧
      queue.getLast? = some last ∧ first.timestamp - last.timestamp < 23 * 60 * 60) :
    getWateringDataLocal queue today00 nowEpoch = .error .insufficientWeatherData := by
  rcases h with rfl | ⟨first, last, hh, hl, hspan⟩
  · rfl
  · unfold getWateringDataLocal
    rw [hh, hl]
    have hspan2 : first.timestamp - last.timestamp < 82800 := by omega
    simp [hspan2]

/-- Witness for C5 at the spec's scenario S2: a store spanning only 12 hours
fails with `InsufficientWeatherData`. -/
theorem c5_span_precondition_witness :
    getWateringDataLocal
      [⟨43200, some 60, some 40, none, none, none⟩,
        ⟨0, some 60, some 40, none, none, none⟩] 86400 86400 =
      .error .insufficientWeatherData :=
  c5_span_precondition _ 86400 86400
    (Or.inr ⟨_, _, rfl, rfl, by norm_num⟩)

/-- C10 — Rounding edge of the current-weather view
(`getWeatherDataInternal`, `local.ts`): the reported 24-hour precipitation
is the `intervalRain` sum truncated downward to two decimals
(`Math.floor(sum * 100) / 100`), `raining` is decided on the truncated
value, and any positive sum below 0.01 therefore reports `precip = 0` and
`raining = false`. -/
theorem c10_precip_truncation (queue : List Observation) (nowEpoch : ℤ)
    (w : CurrentWeather)
    (hw : getWeatherDataLocal queue nowEpoch = .ok w) :
    w.precip =
      ((⌊((queue.filter (fun o => nowEpoch - o.timestamp < 24 * 60 * 60)).map
          (fun o => o.precip.getD 0)).sum * 100⌋ : ℤ) : ℚ) / 100 ∧
    (w.raining = true ↔ 0 < w.precip) ∧
    (0 < ((queue.filter (fun o => nowEpoch - o.timestamp < 24 * 60 * 60)).map
          (fun o => o.precip.getD 0)).sum →
      ((queue.filter (fun o => nowEpoch - o.timestamp < 24 * 60 * 60)).map
          (fun o => o.precip.getD 0)).sum < 1 / 100 →
      w.precip = 0 ∧ w.raining = false) := by
  unfold getWeatherDataLocal at hw
  rcases hq : queue.filter (fun o => nowEpoch - o.timestamp < 24 * 60 * 60) with _ | ⟨latest, rest⟩
  · rw [hq] at hw
    exact absurd hw (by simp)
  · rw [hq] at hw
    have hwv := (Except.ok.injEq _ _).mp hw.symm
    subst hwv
    rw [hq]
    have hsum : precip24 (latest :: rest) =
        ((⌊((latest :: rest).map (fun o => o.precip.getD 0)).sum * 100⌋ : ℤ) : ℚ) / 100 := rfl
    refine ⟨hsum, by simp [decide_eq_true_iff], ?_⟩
    intro hpos hsmall
    have hfloor : ⌊((latest :: rest).map (fun o => o.precip.getD 0)).sum * 100⌋ = 0 := by
      rw [Int.floor_eq_zero_iff]
      constructor
      · positivity
      · nlinarith
    have hp0 : precip24 (latest :: rest) = 0 := by
      rw [hsum, hfloor]
      norm_num
    constructor
    · exact hp0
    · simp only [hp0]
      simp

deriving instance DecidableEq for Except

/-- A single observation carrying 0.005 inches of interval rain, for the
C10 witness. -/
def drizzleObs : Observation :=
  ⟨100, some 70, some 50, some 5, none, some (5 / 1000)⟩

/-- The current-weather record the code reports for `[drizzleObs]` at
epoch 200. -/
def drizzleWeather : CurrentWeather :=
  ⟨"local", some 70, some 50, some 5, false, 0⟩

/-- Witness for C10: a single fresh sample carrying 0.005 inches reports
zero precipitation and no rain. -/
theorem c10_precip_truncation_witness :
    drizzleWeather.precip =
      ((⌊(([drizzleObs].filter (fun o => (200 : ℤ) - o.timestamp < 24 * 60 * 60)).map
          (fun o => o.precip.getD 0)).sum * 100⌋ : ℤ) : ℚ) / 100 ∧
    (drizzleWeather.raining = true ↔ 0 < drizzleWeather.precip) ∧
    (0 < (([drizzleObs].filter (fun o => (200 : ℤ) - o.timestamp < 24 * 60 * 60)).map
          (fun o => o.precip.getD 0)).sum →
      (([drizzleObs].filter (fun o => (200 : ℤ) - o.timestamp < 24 * 60 * 60)).map
          (fun o => o.precip.getD 0)).sum < 1 / 100 →
      drizzleWeather.precip = 0 ∧ drizzleWeather.raining = false) :=
  c10_precip_truncation [drizzleObs] 200 drizzleWeather (by
    unfold getWeatherDataLocal drizzleObs drizzleWeather
    simp [precip24]
    norm_num)

/-- A concrete upstream forecast day (tomorrow, for `today00 = 0`), used by
the counterexamples below. -/
def omDayEx : WeatherDataForecast :=
  ⟨60, 80, 1, 86400, "01d", ""⟩

/-- Counterexample for C8: composing with the OpenMeteo conversion yields a
series whose forecast day carries the hard-coded humidity defaults 50/40/60
(`HybridOpenMeteoProvider.ts` lines 46–59); the day's humidity is not
represented as absent. -/
theorem c8_humidity_counterexample :
    composeWateringBase (.error .insufficientWeatherData)
        (.ok (getForecastDataOM [omDayEx] 0)) = .ok [convertOMDay omDayEx] ∧
    (convertOMDay omDayEx).humidity = 50 ∧
    (convertOMDay omDayEx).minHumidity = 40 ∧
    (convertOMDay omDayEx).maxHumidity = 60 :=
  ⟨rfl, rfl, rfl, rfl⟩

/-- C8 (amended) — the OpenMeteo conversion substitutes the defaults
humidity 50, minHumidity 40, maxHumidity 60 on every forecast day whose
upstream daily response carries no humidity (the daily API never does),
while solar and wind are carried as absent. -/
theorem c8_humidity_defaults (day : WeatherDataForecast) :
    (convertOMDay day).humidity = 50 ∧
    (convertOMDay day).minHumidity = 40 ∧
    (convertOMDay day).maxHumidity = 60 ∧
    (convertOMDay day).solarRadiation = none ∧
    (convertOMDay day).windSpeed = none :=
  ⟨rfl, rfl, rfl, rfl, rfl⟩

/-- Witness for C8 (amended) at a concrete forecast day. -/
theorem c8_humidity_defaults_witness :
    (convertOMDay omDayEx).humidity = 50 ∧
    (convertOMDay omDayEx).minHumidity = 40 ∧
    (convertOMDay omDayEx).maxHumidity = 60 ∧
    (convertOMDay omDayEx).solarRadiation = none ∧
    (convertOMDay omDayEx).windSpeed = none :=
  c8_humidity_defaults omDayEx

/-- Counterexample for C9: with a forecast-provider tag that has no
registered adapter, `getWateringDataWithForecastProvider` (`hybrid.ts`
lines 141–154) returns the local data unchanged when local data is
available, and fails with `InsufficientWeatherData` — not `InvalidProvider`
— when it is not. -/
theorem c9_invalid_provider_counterexample :
    getWateringDataWithForecastProvider (.ok [convertOMDay omDayEx])
        (fun _ => none) "DWD" 0 = .ok [convertOMDay omDayEx] ∧
    getWateringDataWithForecastProvider (.error .insufficientWeatherData)
        (fun _ => none) "DWD" 0 = .error .insufficientWeatherData ∧
    ErrorCode.insufficientWeatherData ≠ ErrorCode.invalidProvider :=
  ⟨rfl, rfl, by decide⟩

/-- C9 (amended) — an unregistered forecast-provider tag never surfaces an
`InvalidProvider` error: the composition returns the local data alone when
the local result is non-empty, and fails with `InsufficientWeatherData`
when the local result failed or was empty. -/
theorem c9_unknown_provider_fallback
    (localRes : Except ErrorCode (List WateringData))
    (providers : String → Option (Except ErrorCode (List WateringData)))
    (name : String) (currentDayEpoch : ℤ)
    (hnone : providers name = none) :
    (∀ l, localRes = .ok l → 0 < l.length →
      getWateringDataWithForecastProvider localRes providers name currentDayEpoch = .ok l) ∧
    (∀ e, localRes = .error e →
      getWateringDataWithForecastProvider localRes providers name currentDayEpoch =
        .error .insufficientWeatherData) ∧
    (localRes = .ok [] →
      getWateringDataWithForecastProvider localRes providers name currentDayEpoch =
        .error .insufficientWeatherData) ∧
    getWateringDataWithForecastProvider localRes providers name currentDayEpoch ≠
      .error .invalidProvider := by
  rcases localRes with e | l
  · have hres : getWateringDataWithForecastProvider (.error e) providers name currentDayEpoch =
        .error .insufficientWeatherData := by
      unfold getWateringDataWithForecastProvider
      rw [hnone]
      rfl
    refine ⟨fun l hl => absurd hl (by simp), fun _ _ => hres, fun h => absurd h (by simp), ?_⟩
    rw [hres]
    simp
  · rcases l with _ | ⟨d, ds⟩
    · have hres : getWateringDataWithForecastProvider (.ok []) providers name currentDayEpoch =
          .error .insufficientWeatherData := by
        unfold getWateringDataWithForecastProvider
        rw [hnone]
        rfl
      refine ⟨?_, fun e he => absurd he (by simp), fun _ => hres, ?_⟩
      · intro l hl hlen
        rw [(Except.ok.injEq _ _).mp hl.symm] at hlen
        simp at hlen
      · rw [hres]
        simp
    · have hres : getWateringDataWithForecastProvider (.ok (d :: ds)) providers name currentDayEpoch =
          .ok (d :: ds) := by
        unfold getWateringDataWithForecastProvider
        rw [hnone]
        simp
      refine ⟨?_, fun e he => absurd he (by simp), fun h => ?_, ?_⟩
      · intro l hl _
        obtain rfl : l = d :: ds := (Except.ok.injEq _ _).mp hl.symm
        exact hres
      · exact absurd ((Except.ok.injEq _ _).mp h.symm) (by simp)
      · rw [hres]
        simp

/-- Witness for C9 (amended): with local data present and the empty
registry, the composition returns the local data. -/
theorem c9_unknown_provider_fallback_witness :
    (fun _ : String => (none : Option (Except ErrorCode (List WateringData)))) "DWD" = none ∧
    getWateringDataWithForecastProvider (.ok [convertOMDay omDayEx])
      (fun _ => none) "DWD" 0 = .ok [convertOMDay omDayEx] :=
  ⟨rfl,
    (c9_unknown_provider_fallback (.ok [convertOMDay omDayEx]) (fun _ => none) "DWD" 0 rfl).1
      [convertOMDay omDayEx] rfl (by simp)⟩

/-! ### Helper lemmas about the day aggregation -/

theorem mkBucket_periodStartTime {dayObs : List Observation} {s : ℤ}
    {b : WateringData} (h : mkBucket dayObs s = some b) : b.periodStartTime = s := by
  unfold mkBucket at h
  split at h
  · cases h
  · dsimp only at h
    split at h
    · split at h
      · cases h
        rfl
      · cases h
    · cases h

theorem mkBucket_nil (s : ℤ) : mkBucket [] s = none := rfl

theorem pastDays_eq_nil_of_empty (fd : List Observation) (dayEnd : ℤ) (n : ℕ)
    (h : fd.filter (fun o => decide (dayEnd - 86400 ≤ o.timestamp ∧ o.timestamp < dayEnd)) = []) :
    pastDays fd dayEnd (n + 1) = [] := by
  simp only [pastDays]
  rw [h]
  rfl

/-- Counterexample input for C6: two same-day samples spanning 23 h, with an
empty yesterday. -/
def gapQueue : List Observation :=
  [⟨86000, some 70, some 50, some 5, none, some 0⟩,
    ⟨3000, some 60, some 40, some 3, none, some 0⟩]

/-- The today bucket the aggregation emits for `gapQueue` at `today00 = 0`,
`now = 86000`. -/
def gapTodayBucket : WateringData :=
  ⟨"local", 0, 65, 45, 0, 60, 70, 40, 50, none, some 4⟩

/-- Counterexample for C6: with the span precondition satisfied and no
sample in yesterday's window, the current revision of
`getWateringDataInternal` (`local.ts`) does **not** fail — it returns
today's partial bucket alone. -/
theorem c6_yesterday_gap_counterexample :
    (gapQueue.filter (fun o => decide ((0 : ℤ) - 7 * 86400 ≤ o.timestamp ∧
        o.timestamp ≤ 86000))).filter
      (fun o => decide ((0 : ℤ) - 86400 ≤ o.timestamp ∧ o.timestamp < 0)) = [] ∧
    getWateringDataLocal gapQueue 0 86000 = .ok [gapTodayBucket] :=
  ⟨rfl, by with_unfolding_all rfl⟩

/-- C6 (amended) — once the span precondition holds, the per-day loop never
fails: a gap at any day, yesterday included, stops the loop, and when
yesterday's window is empty the operation returns only today's partial
bucket (every returned element starts at today's local midnight). -/
theorem c6_gap_returns_prefix (queue : List Observation) (today00 nowEpoch : ℤ)
    (first last : Observation)
    (hh : queue.head? = some first) (hl : queue.getLast? = some last)
    (hspan : ¬ (first.timestamp - last.timestamp < 23 * 60 * 60)) :
    (∃ l, getWateringDataLocal queue today00 nowEpoch = .ok l) ∧
    ((queue.filter (fun o => decide (today00 - 7 * 86400 ≤ o.timestamp ∧
          o.timestamp ≤ nowEpoch))).filter
        (fun o => decide (today00 - 86400 ≤ o.timestamp ∧ o.timestamp < today00)) = [] →
      ∀ l, getWateringDataLocal queue today00 nowEpoch = .ok l →
        ∀ d ∈ l, d.periodStartTime = today00) := by
  have hres : getWateringDataLocal queue today00 nowEpoch =
      .ok ((match mkBucket ((queue.filter (fun o => decide (today00 - 7 * 86400 ≤ o.timestamp ∧
              o.timestamp ≤ nowEpoch))).filter
            (fun o => decide (today00 ≤ o.timestamp ∧ o.timestamp ≤ nowEpoch))) today00 with
          | some b => [b]
          | none => []) ++
        pastDays (queue.filter (fun o => decide (today00 - 7 * 86400 ≤ o.timestamp ∧
          o.timestamp ≤ nowEpoch))) today00 7) := by
    unfold getWateringDataLocal
    rw [hh, hl]
    show (if first.timestamp - last.timestamp < 23 * 60 * 60 then
        Except.error ErrorCode.insufficientWeatherData else _) = _
    rw [if_neg hspan]
  refine ⟨⟨_, hres⟩, ?_⟩
  intro hemp l hok d hd
  have hpd : pastDays (queue.filter (fun o => decide (today00 - 7 * 86400 ≤ o.timestamp ∧
      o.timestamp ≤ nowEpoch))) today00 7 = [] :=
    pastDays_eq_nil_of_empty _ today00 6 hemp
  rw [hpd, List.append_nil] at hres
  rw [hres] at hok
  obtain rfl := (Except.ok.injEq _ _).mp hok
  rcases hmb : mkBucket ((queue.filter (fun o => decide (today00 - 7 * 86400 ≤ o.timestamp ∧
      o.timestamp ≤ nowEpoch))).filter
      (fun o => decide (today00 ≤ o.timestamp ∧ o.timestamp ≤ nowEpoch))) today00 with _ | b
  · rw [hmb] at hd
    simp at hd
  · rw [hmb] at hd
    rcases List.mem_singleton.mp hd with rfl
    exact mkBucket_periodStartTime hmb

/-- Witness for C6 (amended) at the concrete gap queue: the operation
succeeds, and its single element is today's bucket. -/
theorem c6_gap_returns_prefix_witness :
    (∃ l, getWateringDataLocal gapQueue 0 86000 = .ok l) ∧
    ((gapQueue.filter (fun o => decide ((0 : ℤ) - 7 * 86400 ≤ o.timestamp ∧
          o.timestamp ≤ 86000))).filter
        (fun o => decide ((0 : ℤ) - 86400 ≤ o.timestamp ∧ o.timestamp < 0)) = [] →
      ∀ l, getWateringDataLocal gapQueue 0 86000 = .ok l →
        ∀ d ∈ l, d.periodStartTime = 0) :=
  c6_gap_returns_prefix gapQueue 0 86000 _ _ rfl rfl (by decide)

/-! ### Optional and required sensors (C7) -/

theorem minStep_some_of_some (f : Observation → Option ℚ) (v : ℚ) (o : Observation) :
    ∃ w, minStep f (some v) o = some w := by
  unfold minStep
  rcases f o with _ | u
  · exact ⟨v, rfl⟩
  · exact ⟨if v > u then u else v, rfl⟩

theorem maxStep_some_of_some (f : Observation → Option ℚ) (v : ℚ) (o : Observation) :
    ∃ w, maxStep f (some v) o = some w := by
  unfold maxStep
  rcases f o with _ | u
  · exact ⟨v, rfl⟩
  · exact ⟨if v < u then u else v, rfl⟩

theorem foldl_minStep_some (f : Observation → Option ℚ) (l : List Observation) :
    ∀ v : ℚ, (l.foldl (minStep f) (some v)).isSome := by
  induction l with
  | nil => intro v; rfl
  | cons a t ih =>
    intro v
    rw [List.foldl_cons]
    obtain ⟨w, hw⟩ := minStep_some_of_some f v a
    rw [hw]
    exact ih w

theorem foldl_maxStep_some (f : Observation → Option ℚ) (l : List Observation) :
    ∀ v : ℚ, (l.foldl (maxStep f) (some v)).isSome := by
  induction l with
  | nil => intro v; rfl
  | cons a t ih =>
    intro v
    rw [List.foldl_cons]
    obtain ⟨w, hw⟩ := maxStep_some_of_some f v a
    rw [hw]
    exact ih w

theorem foldMin_isSome (f : Observation → Option ℚ) (l : List Observation)
    (h : ∃ o ∈ l, (f o).isSome) : (foldMin f l).isSome := by
  induction l with
  | nil => simp at h
  | cons a t ih =>
    unfold foldMin
    rw [List.foldl_cons]
    rcases ha : f a with _ | v
    · have hstep : minStep f none a = none := by
        unfold minStep
        rw [ha]
      rw [hstep]
      show (foldMin f t).isSome
      apply ih
      rcases h with ⟨o, ho, hos⟩
      rcases List.mem_cons.mp ho with rfl | hot
      · rw [ha] at hos
        simp at hos
      · exact ⟨o, hot, hos⟩
    · have hstep : minStep f none a = some v := by
        unfold minStep
        rw [ha]
      rw [hstep]
      exact foldl_minStep_some f t v

theorem foldMax_isSome (f : Observation → Option ℚ) (l : List Observation)
    (h : ∃ o ∈ l, (f o).isSome) : (foldMax f l).isSome := by
  induction l with
  | nil => simp at h
  | cons a t ih =>
    unfold foldMax
    rw [List.foldl_cons]
    rcases ha : f a with _ | v
    · have hstep : maxStep f none a = none := by
        unfold maxStep
        rw [ha]
      rw [hstep]
      show (foldMax f t).isSome
      apply ih
      rcases h with ⟨o, ho, hos⟩
      rcases List.mem_cons.mp ho with rfl | hot
      · rw [ha] at hos
        simp at hos
      · exact ⟨o, hot, hos⟩
    · have hstep : maxStep f none a = some v := by
        unfold maxStep
        rw [ha]
      rw [hstep]
      exact foldl_maxStep_some f t v

theorem countSome_pos_exists {f : Observation → Option ℚ} {l : List Observation}
    (h : countSome f l ≠ 0) : ∃ o ∈ l, (f o).isSome := by
  unfold countSome at h
  rcases hf : l.filter (fun o => (f o).isSome) with _ | ⟨o, t⟩
  · rw [hf] at h
    simp at h
  · have ho : o ∈ l.filter (fun o => (f o).isSome) := by
      rw [hf]
      exact List.mem_cons_self o t
    rw [List.mem_filter] at ho
    exact ⟨o, ho.1, ho.2⟩

theorem countSome_ne_nil {f : Observation → Option ℚ} {l : List Observation}
    (h : countSome f l ≠ 0) : l.isEmpty = false := by
  obtain ⟨o, ho, _⟩ := countSome_pos_exists h
  rcases l with _ | _
  · simp at ho
  · rfl

/-- Counterexample input for C7: today has a full sample, yesterday's only
sample has temperature and humidity but no wind reading. -/
def windlessQueue : List Observation :=
  [⟨86000, some 70, some 50, some 5, none, some 0⟩,
    ⟨-40000, some 60, some 40, none, none, some 0⟩]

/-- The today bucket the aggregation emits for `windlessQueue`. -/
def windlessTodayBucket : WateringData :=
  ⟨"local", 0, 70, 50, 0, 70, 70, 50, 50, none, some 5⟩

/-- Counterexample for C7: yesterday's window holds a sample with both a
temperature and a humidity reading, yet — because no sample of that day has
a wind reading (`!cWind` in `local.ts`) — no bucket for yesterday
(`periodStartTime = -86400`) is emitted; the result is today's bucket
alone. -/
theorem c7_wind_disqualifies_counterexample :
    ((⟨-40000, some 60, some 40, none, none, some 0⟩ : Observation).temp.isSome ∧
      (⟨-40000, some 60, some 40, none, none, some 0⟩ : Observation).humidity.isSome ∧
      (⟨-40000, some 60, some 40, none, none, some 0⟩ : Observation).windSpeed = none) ∧
    getWateringDataLocal windlessQueue 0 86000 = .ok [windlessTodayBucket] ∧
    (∀ d ∈ [windlessTodayBucket], d.periodStartTime ≠ -86400) :=
  ⟨⟨by decide, by decide, by decide⟩, by with_unfolding_all rfl, by decide⟩

/-- C7 (amended) — solar is optional but wind is required: a day window with
at least one temperature, one humidity and one wind sample always yields a
bucket, carrying the wind average and the solar average exactly when solar
samples exist; a day window without any wind sample never yields a
bucket. -/
theorem c7_solar_optional_wind_required (dayObs : List Observation) (dayStart : ℤ)
    (ht : countSome (fun o => o.temp) dayObs ≠ 0)
    (hhum : countSome (fun o => o.humidity) dayObs ≠ 0)
    (hw : countSome (fun o => o.windSpeed) dayObs ≠ 0) :
    (∃ b, mkBucket dayObs dayStart = some b ∧
      b.windSpeed = some (sumSome (fun o => o.windSpeed) dayObs /
        (countSome (fun o => o.windSpeed) dayObs : ℚ)) ∧
      b.solarRadiation = (if countSome (fun o => o.solarRadiation) dayObs ≠ 0 then
        some (sumSome (fun o => o.solarRadiation) dayObs /
          (countSome (fun o => o.solarRadiation) dayObs : ℚ))
        else none)) ∧
    (∀ obs2 : List Observation, ∀ s2 : ℤ,
      countSome (fun o => o.windSpeed) obs2 = 0 → mkBucket obs2 s2 = none) := by
  constructor
  · obtain ⟨minT, hminT⟩ := Option.isSome_iff_exists.mp
      (foldMin_isSome (fun o => o.temp) dayObs (countSome_pos_exists ht))
    obtain ⟨maxT, hmaxT⟩ := Option.isSome_iff_exists.mp
      (foldMax_isSome (fun o => o.temp) dayObs (countSome_pos_exists ht))
    obtain ⟨minH, hminH⟩ := Option.isSome_iff_exists.mp
      (foldMin_isSome (fun o => o.humidity) dayObs (countSome_pos_exists hhum))
    obtain ⟨maxH, hmaxH⟩ := Option.isSome_iff_exists.mp
      (foldMax_isSome (fun o => o.humidity) dayObs (countSome_pos_exists hhum))
    refine ⟨⟨"local", dayStart,
        sumSome (fun o => o.temp) dayObs / (countSome (fun o => o.temp) dayObs : ℚ),
        sumSome (fun o => o.humidity) dayObs / (countSome (fun o => o.humidity) dayObs : ℚ),
        sumSome (fun o => o.precip) dayObs, minT, maxT, minH, maxH,
        if countSome (fun o => o.solarRadiation) dayObs ≠ 0 then
          some (sumSome (fun o => o.solarRadiation) dayObs /
            (countSome (fun o => o.solarRadiation) dayObs : ℚ))
        else none,
        some (sumSome (fun o => o.windSpeed) dayObs /
          (countSome (fun o => o.windSpeed) dayObs : ℚ))⟩, ?_, rfl, rfl⟩
    unfold mkBucket
    rw [if_neg (by rw [countSome_ne_nil ht]; exact Bool.false_ne_true)]
    dsimp only
    rw [hminT, hmaxT, hminH, hmaxH]
    exact if_pos ⟨ht, hhum, hw⟩
  · intro obs2 s2 hw2
    unfold mkBucket
    split
    · rfl
    · dsimp only
      split
      · exact if_neg (fun hcontra => hcontra.2.2 hw2)
      all_goals rfl

/-- A one-sample day with temperature, humidity and wind but no solar, for
the C7 witness. -/
def fullSampleDay : List Observation :=
  [⟨86000, some 70, some 50, some 5, none, some 0⟩]

/-- Witness for C7 (amended) at a concrete windy, solar-less day. -/
theorem c7_solar_optional_wind_required_witness :
    (∃ b, mkBucket fullSampleDay 0 = some b ∧
      b.windSpeed = some (sumSome (fun o => o.windSpeed) fullSampleDay /
        (countSome (fun o => o.windSpeed) fullSampleDay : ℚ)) ∧
      b.solarRadiation = (if countSome (fun o => o.solarRadiation) fullSampleDay ≠ 0 then
        some (sumSome (fun o => o.solarRadiation) fullSampleDay /
          (countSome (fun o => o.solarRadiation) fullSampleDay : ℚ))
        else none)) ∧
    (∀ obs2 : List Observation, ∀ s2 : ℤ,
      countSome (fun o => o.windSpeed) obs2 = 0 → mkBucket obs2 s2 = none) :=
  c7_solar_optional_wind_required fullSampleDay 0 (by decide) (by decide) (by decide)

/-! ### Degradation matrix of the hybrid composer (C3) -/

/-- C3 — Degradation (`BaseHybridProvider.getWateringDataInternal`):
a non-empty local result survives a forecast failure unchanged and raises
no error; the composition fails exactly when the local source failed or was
empty and the forecast source failed or was empty; and the only error it
ever raises is `InsufficientWeatherData`. -/
theorem c3_degradation (localRes forecastRes : Except ErrorCode (List WateringData)) :
    (∀ l, localRes = .ok l → l ≠ [] → ∀ e, forecastRes = .error e →
      composeWateringBase localRes forecastRes = .ok l) ∧
    ((∃ e, composeWateringBase localRes forecastRes = .error e) ↔
      ((localRes = .ok [] ∨ ∃ e, localRes = .error e) ∧
        (forecastRes = .ok [] ∨ ∃ e, forecastRes = .error e))) ∧
    (∀ e, composeWateringBase localRes forecastRes = .error e →
      e = .insufficientWeatherData) := by
  rcases localRes with eL | lL
  · rcases forecastRes with eF | f
    · have hres : composeWateringBase (.error eL) (.error eF) =
          .error .insufficientWeatherData := rfl
      refine ⟨fun l hl => absurd hl (by simp), ?_, ?_⟩
      · rw [hres]
        simp
      · intro e he
        rw [hres] at he
        exact ((Except.error.injEq _ _).mp he).symm
    · rcases f with _ | ⟨d, ds⟩
      · have hres : composeWateringBase (.error eL) (.ok []) =
            .error .insufficientWeatherData := rfl
        refine ⟨fun l hl => absurd hl (by simp), ?_, ?_⟩
        · rw [hres]
          simp
        · intro e he
          rw [hres] at he
          exact ((Except.error.injEq _ _).mp he).symm
      · have hres : composeWateringBase (.error eL) (.ok (d :: ds)) =
            .ok (sortDesc (d :: ds)) := rfl
        refine ⟨fun l hl => absurd hl (by simp), ?_, ?_⟩
        · rw [hres]
          simp
        · intro e he
          rw [hres] at he
          cases he
  · rcases lL with _ | ⟨d, ds⟩
    · rcases forecastRes with eF | f
      · have hres : composeWateringBase (.ok []) (.error eF) =
            .error .insufficientWeatherData := rfl
        refine ⟨fun l hl hne => absurd ((Except.ok.injEq _ _).mp hl) (by
          intro h2
          exact hne h2.symm), ?_, ?_⟩
        · rw [hres]
          simp
        · intro e he
          rw [hres] at he
          exact ((Except.error.injEq _ _).mp he).symm
      · rcases f with _ | ⟨d, ds⟩
        · have hres : composeWateringBase (.ok []) (.ok []) =
              .error .insufficientWeatherData := rfl
          refine ⟨fun l hl hne => absurd ((Except.ok.injEq _ _).mp hl) (by
            intro h2
            exact hne h2.symm), ?_, ?_⟩
          · rw [hres]
            simp
          · intro e he
            rw [hres] at he
            exact ((Except.error.injEq _ _).mp he).symm
        · have hres : composeWateringBase (.ok []) (.ok (d :: ds)) =
              .ok (sortDesc (d :: ds)) := rfl
          refine ⟨fun l hl hne => absurd ((Except.ok.injEq _ _).mp hl) (by
            intro h2
            exact hne h2.symm), ?_, ?_⟩
          · rw [hres]
            simp
          · intro e he
            rw [hres] at he
            cases he
    · rcases forecastRes with eF | f
      · have hres : composeWateringBase (.ok (d :: ds)) (.error eF) =
            .ok (d :: ds) := by
          simp [composeWateringBase]
        refine ⟨?_, ?_, ?_⟩
        · intro l hl _ e _
          obtain rfl : l = d :: ds := ((Except.ok.injEq _ _).mp hl).symm
          exact hres
        · rw [hres]
          simp
        · intro e he
          rw [hres] at he
          cases he
      · have hres : composeWateringBase (.ok (d :: ds)) (.ok f) =
            .ok (sortDesc ((d :: ds) ++ removeOverlap true (d :: ds) f)) := by
          simp [composeWateringBase]
        refine ⟨fun l _ _ e he => absurd he (by simp), ?_, ?_⟩
        · rw [hres]
          simp
        · intro e he
          rw [hres] at he
          cases he

/-- Witness for C3 (scenario S5): local data present, forecast failing —
the composition returns the local days unchanged. -/
theorem c3_degradation_witness :
    composeWateringBase (.ok [gapTodayBucket]) (.error .insufficientWeatherData) =
      .ok [gapTodayBucket] :=
  (c3_degradation (.ok [gapTodayBucket]) (.error .insufficientWeatherData)).1
    [gapTodayBucket] rfl (by simp) .insufficientWeatherData rfl

/-! ### Forecast filtering by calendar day (C4) -/

/-- C4 — Forecast filtering (`HybridOpenMeteoProvider.getForecastData`,
also `hybrid.ts` lines 197–203): with `today00` the epoch of the caller's
local midnight and `now` inside today, the `periodStartTime >= tomorrowEpoch`
filter keeps exactly the forecast entries whose local calendar date is
strictly after today's local calendar date — also when upstream timestamps
are not at local midnight (e.g. 06:00 UTC) — and every kept element's local
calendar day is strictly after today's. -/
theorem c4_forecast_calendar_filter (forecast : List WeatherDataForecast)
    (tzOffset today00 nowEpoch : ℤ)
    (hmid : (today00 + tzOffset) % 86400 = 0)
    (hnow1 : today00 ≤ nowEpoch) (hnow2 : nowEpoch < today00 + 86400) :
    (∀ d ∈ getForecastDataOM forecast today00,
      localCalendarDay tzOffset nowEpoch < localCalendarDay tzOffset d.periodStartTime) ∧
    getForecastDataOM forecast today00 = calendarDayFilterOM forecast tzOffset nowEpoch := by
  have hequiv : ∀ d : WateringData,
      (decide (today00 + 24 * 60 * 60 ≤ d.periodStartTime)) =
      (decide (localCalendarDay tzOffset nowEpoch <
        localCalendarDay tzOffset d.periodStartTime)) := by
    intro d
    rw [decide_eq_decide]
    unfold localCalendarDay
    omega
  constructor
  · intro d hd
    rw [getForecastDataOM, List.mem_filter, hequiv d] at hd
    exact of_decide_eq_true hd.2
  · exact List.filter_congr (fun d _ => hequiv d)

/-- An upstream forecast day stamped at 06:00 UTC of the following day, for
the C4 witness. -/
def nonMidnightDay : WeatherDataForecast :=
  ⟨60, 80, 1, 108000, "01d", ""⟩

/-- Witness for C4 in the UTC zone at `now = 01:00`: the sole forecast entry
(stamped tomorrow 06:00 UTC) is kept, its calendar day lies strictly in the
future, and the epoch filter agrees with the calendar-day filter. -/
theorem c4_forecast_calendar_filter_witness :
    (∀ d ∈ getForecastDataOM [nonMidnightDay] 0,
      localCalendarDay 0 3600 < localCalendarDay 0 d.periodStartTime) ∧
    getForecastDataOM [nonMidnightDay] 0 = calendarDayFilterOM [nonMidnightDay] 0 3600 :=
  c4_forecast_calendar_filter [nonMidnightDay] 0 0 3600 (by decide) (by decide) (by decide)

/-! ### Strict newest-first ordering of the combined series (C1) -/

theorem le_foldl_max (as : List ℤ) : ∀ a k : ℤ, k ∈ a :: as → k ≤ as.foldl max a := by
  induction as with
  | nil =>
    intro a k h
    rw [List.mem_singleton] at h
    subst h
    exact le_refl _
  | cons b bs ih =>
    intro a k h
    rw [List.foldl_cons]
    rcases List.mem_cons.mp h with rfl | h2
    · exact le_trans (le_max_left k b) (ih (max k b) (max k b) (List.mem_cons_self _ _))
    · rcases List.mem_cons.mp h2 with rfl | h3
      · exact le_trans (le_max_right a k) (ih (max a k) (max a k) (List.mem_cons_self _ _))
      · exact ih (max a b) k (List.mem_cons_of_mem _ h3)

theorem foldl_min_le (as : List ℤ) : ∀ a k : ℤ, k ∈ a :: as → as.foldl min a ≤ k := by
  induction as with
  | nil =>
    intro a k h
    rw [List.mem_singleton] at h
    subst h
    exact le_refl _
  | cons b bs ih =>
    intro a k h
    rw [List.foldl_cons]
    rcases List.mem_cons.mp h with rfl | h2
    · exact le_trans (ih (min k b) (min k b) (List.mem_cons_self _ _)) (min_le_left k b)
    · rcases List.mem_cons.mp h2 with rfl | h3
      · exact le_trans (ih (min a k) (min a k) (List.mem_cons_self _ _)) (min_le_right a k)
      · exact ih (min a b) k (List.mem_cons_of_mem _ h3)

theorem le_latestPeriod {l : List WateringData} {d : WateringData} (hd : d ∈ l) :
    d.periodStartTime ≤ latestPeriod l := by
  rcases l with _ | ⟨x, xs⟩
  · simp at hd
  · show d.periodStartTime ≤ (((x :: xs).map (fun d => d.periodStartTime)).max?).getD 0
    rw [List.map_cons]
    have hmax : (x.periodStartTime :: xs.map (fun d => d.periodStartTime)).max? =
        some ((xs.map (fun d => d.periodStartTime)).foldl max x.periodStartTime) := rfl
    rw [hmax, Option.getD_some]
    apply le_foldl_max
    rcases List.mem_cons.mp hd with rfl | h2
    · exact List.mem_cons_self _ _
    · exact List.mem_cons_of_mem _ (List.mem_map_of_mem _ h2)

theorem earliestPeriod_le {l : List WateringData} {d : WateringData} (hd : d ∈ l) :
    earliestPeriod l ≤ d.periodStartTime := by
  rcases l with _ | ⟨x, xs⟩
  · simp at hd
  · show (((x :: xs).map (fun d => d.periodStartTime)).min?).getD 0 ≤ d.periodStartTime
    rw [List.map_cons]
    have hmin : (x.periodStartTime :: xs.map (fun d => d.periodStartTime)).min? =
        some ((xs.map (fun d => d.periodStartTime)).foldl min x.periodStartTime) := rfl
    rw [hmin, Option.getD_some]
    apply foldl_min_le
    rcases List.mem_cons.mp hd with rfl | h2
    · exact List.mem_cons_self _ _
    · exact List.mem_cons_of_mem _ (List.mem_map_of_mem _ h2)

theorem pastDays_desc (fd : List Observation) : ∀ (n : ℕ) (dayEnd : ℤ),
    (∀ b ∈ pastDays fd dayEnd n, b.periodStartTime < dayEnd) ∧
    (pastDays fd dayEnd n).Pairwise (fun a b => b.periodStartTime < a.periodStartTime) := by
  intro n
  induction n with
  | zero =>
    intro dayEnd
    exact ⟨by simp [pastDays], by simp [pastDays]⟩
  | succ m ih =>
    intro dayEnd
    rcases hmb : mkBucket (fd.filter (fun o => decide (dayEnd - 86400 ≤ o.timestamp ∧
        o.timestamp < dayEnd))) (dayEnd - 86400) with _ | b
    · have hlist : pastDays fd dayEnd (m + 1) = [] := by
        simp only [pastDays]
        rw [hmb]
      rw [hlist]
      exact ⟨by simp, by simp⟩
    · have hlist : pastDays fd dayEnd (m + 1) = b :: pastDays fd (dayEnd - 86400) m := by
        simp only [pastDays]
        rw [hmb]
      have hbp : b.periodStartTime = dayEnd - 86400 := mkBucket_periodStartTime hmb
      obtain ⟨ihmem, ihpw⟩ := ih (dayEnd - 86400)
      rw [hlist]
      constructor
      · intro c hc
        rcases List.mem_cons.mp hc with rfl | hc2
        · omega
        · have := ihmem c hc2
          omega
      · rw [List.pairwise_cons]
        refine ⟨?_, ihpw⟩
        intro c hc
        have := ihmem c hc
        omega

/-- Today's bucket followed by strictly older, strictly decreasing days is
strictly decreasing. -/
theorem append_desc (today00 : ℤ) (tp pd : List WateringData)
    (htp : ∀ a ∈ tp, a.periodStartTime = today00)
    (htppw : tp.Pairwise (fun a b => b.periodStartTime < a.periodStartTime))
    (hpd : ∀ b ∈ pd, b.periodStartTime < today00)
    (hpdpw : pd.Pairwise (fun a b => b.periodStartTime < a.periodStartTime)) :
    (tp ++ pd).Pairwise (fun a b => b.periodStartTime < a.periodStartTime) := by
  rw [List.pairwise_append]
  refine ⟨htppw, hpdpw, ?_⟩
  intro a ha b hb
  rw [htp a ha]
  exact hpd b hb

/-- A successful local watering result is strictly decreasing in
`periodStartTime`. -/
theorem getWateringDataLocal_desc (queue : List Observation) (today00 nowEpoch : ℤ)
    (l : List WateringData)
    (h : getWateringDataLocal queue today00 nowEpoch = .ok l) :
    l.Pairwise (fun a b => b.periodStartTime < a.periodStartTime) := by
  rcases hh : queue.head? with _ | first
  · have herr : getWateringDataLocal queue today00 nowEpoch =
        .error .insufficientWeatherData := by
      unfold getWateringDataLocal
      rw [hh]
    rw [herr] at h
    exact absurd h (by simp)
  · rcases hl : queue.getLast? with _ | last
    · have herr : getWateringDataLocal queue today00 nowEpoch =
          .error .insufficientWeatherData := by
        unfold getWateringDataLocal
        rw [hh, hl]
      rw [herr] at h
      exact absurd h (by simp)
    · by_cases hspan : first.timestamp - last.timestamp < 23 * 60 * 60
      · have herr : getWateringDataLocal queue today00 nowEpoch =
            .error .insufficientWeatherData := by
          unfold getWateringDataLocal
          rw [hh, hl]
          show (if first.timestamp - last.timestamp < 23 * 60 * 60 then
              Except.error ErrorCode.insufficientWeatherData else _) = _
          rw [if_pos hspan]
        rw [herr] at h
        exact absurd h (by simp)
      · have hres : getWateringDataLocal queue today00 nowEpoch =
            .ok ((match mkBucket ((queue.filter (fun o => decide (today00 - 7 * 86400 ≤ o.timestamp ∧
                    o.timestamp ≤ nowEpoch))).filter
                  (fun o => decide (today00 ≤ o.timestamp ∧ o.timestamp ≤ nowEpoch))) today00 with
                | some b => [b]
                | none => []) ++
              pastDays (queue.filter (fun o => decide (today00 - 7 * 86400 ≤ o.timestamp ∧
                o.timestamp ≤ nowEpoch))) today00 7) := by
          unfold getWateringDataLocal
          rw [hh, hl]
          show (if first.timestamp - last.timestamp < 23 * 60 * 60 then
              Except.error ErrorCode.insufficientWeatherData else _) = _
          rw [if_neg hspan]
        rw [hres] at h
        obtain rfl := ((Except.ok.injEq _ _).mp h).symm
        apply append_desc today00
        · intro a ha
          rcases hmb : mkBucket ((queue.filter (fun o => decide (today00 - 7 * 86400 ≤ o.timestamp ∧
              o.timestamp ≤ nowEpoch))).filter
              (fun o => decide (today00 ≤ o.timestamp ∧ o.timestamp ≤ nowEpoch))) today00 with _ | b
          · rw [hmb] at ha
            simp at ha
          · rw [hmb] at ha
            rcases List.mem_singleton.mp ha with rfl
            exact mkBucket_periodStartTime hmb
        · rcases hmb : mkBucket ((queue.filter (fun o => decide (today00 - 7 * 86400 ≤ o.timestamp ∧
              o.timestamp ≤ nowEpoch))).filter
              (fun o => decide (today00 ≤ o.timestamp ∧ o.timestamp ≤ nowEpoch))) today00 with _ | b
          · rw [hmb]
            simp
          · rw [hmb]
            simp
        · exact (pastDays_desc _ 7 today00).1
        · exact (pastDays_desc _ 7 today00).2

/-- Sorting the union of a strictly decreasing historical list and a
forecast list with distinct keys, the two sides key-disjoint, yields a
strictly decreasing list. -/
theorem sortDesc_strict (hist fd : List WateringData)
    (hhist : hist.Pairwise (fun a b => b.periodStartTime < a.periodStartTime))
    (hfd : (fd.map (fun d => d.periodStartTime)).Nodup)
    (hcross : ∀ a ∈ hist, ∀ b ∈ fd, a.periodStartTime ≠ b.periodStartTime) :
    (sortDesc (hist ++ fd)).Pairwise (fun a b => b.periodStartTime < a.periodStartTime) := by
  have hsorted : (sortDesc (hist ++ fd)).Sorted wdGE := List.sorted_insertionSort wdGE _
  have hperm : (sortDesc (hist ++ fd)).Perm (hist ++ fd) := List.perm_insertionSort wdGE _
  have hhn : (hist.map (fun d => d.periodStartTime)).Nodup :=
    List.pairwise_map.mpr (hhist.imp fun hab => ne_of_gt hab)
  have hcombined : ((hist ++ fd).map (fun d => d.periodStartTime)).Nodup := by
    rw [List.map_append, List.nodup_append]
    refine ⟨hhn, hfd, ?_⟩
    intro k hk1 hk2
    obtain ⟨a, ha, rfl⟩ := List.mem_map.mp hk1
    obtain ⟨b, hb, hkb⟩ := List.mem_map.mp hk2
    exact hcross a ha b hb hkb.symm
  have hsn : ((sortDesc (hist ++ fd)).map (fun d => d.periodStartTime)).Nodup :=
    ((hperm.map _).nodup_iff).mpr hcombined
  have hpw := List.pairwise_map.mp hsn
  exact (List.Pairwise.and hsorted hpw).imp
    (fun hab => lt_of_le_of_ne hab.1 hab.2.symm)

theorem removeOverlap_nodup (hist f : List WateringData)
    (hnf : (f.map (fun d => d.periodStartTime)).Nodup) :
    ((removeOverlap true hist f).map (fun d => d.periodStartTime)).Nodup := by
  unfold removeOverlap
  split
  · show (List.map (fun d => d.periodStartTime)
      (if earliestPeriod f ≤ latestPeriod hist then
        f.filter (fun d => decide (latestPeriod hist < d.periodStartTime))
      else f)).Nodup
    split
    · exact List.Nodup.sublist (List.Sublist.map _ (List.filter_sublist f)) hnf
    · exact hnf
  · exact hnf

theorem removeOverlap_cross (hist f : List WateringData) :
    ∀ a ∈ hist, ∀ b ∈ removeOverlap true hist f,
      a.periodStartTime ≠ b.periodStartTime := by
  intro a ha b hb
  have hale : a.periodStartTime ≤ latestPeriod hist := le_latestPeriod ha
  unfold removeOverlap at hb
  split at hb
  · have hb2 : b ∈ (if earliestPeriod f ≤ latestPeriod hist then
        f.filter (fun d => decide (latestPeriod hist < d.periodStartTime))
      else f) := hb
    clear hb
    split at hb2
    · rw [List.mem_filter] at hb2
      have hgt : latestPeriod hist < b.periodStartTime := of_decide_eq_true hb2.2
      omega
    · rename_i hnle
      have hgt : latestPeriod hist < earliestPeriod f := by omega
      have hble : earliestPeriod f ≤ b.periodStartTime := earliestPeriod_le hb2
      omega
  · rename_i hguard
    rcases f with _ | ⟨x, xs⟩
    · simp at hb
    · rcases hist with _ | ⟨y, ys⟩
      · simp at ha
      · exact absurd (by simp : (true && !((y :: ys) : List WateringData).isEmpty &&
          !((x :: xs) : List WateringData).isEmpty) = true) hguard

/-- C1 — Strict newest-first order: every series the hybrid composition
returns (local aggregation composed with a forecast outcome whose successful
value has pairwise-distinct `periodStartTime`s) is strictly decreasing in
`periodStartTime` at every adjacent pair. -/
theorem c1_strict_order (queue : List Observation) (today00 nowEpoch : ℤ)
    (forecastRes : Except ErrorCode (List WateringData))
    (hnodup : ∀ f, forecastRes = .ok f → (f.map (fun d => d.periodStartTime)).Nodup)
    (l : List WateringData)
    (h : composeWateringBase (getWateringDataLocal queue today00 nowEpoch) forecastRes = .ok l) :
    l.Chain' (fun a b => b.periodStartTime < a.periodStartTime) := by
  apply List.Pairwise.chain'
  rcases hL : getWateringDataLocal queue today00 nowEpoch with eL | hist
  · rw [hL] at h
    rcases forecastRes with eF | f
    · exact absurd h (by simp [composeWateringBase, removeOverlap])
    · have hnf := hnodup f rfl
      rcases f with _ | ⟨x, xs⟩
      · exact absurd h (by simp [composeWateringBase, removeOverlap])
      · have hres : composeWateringBase (.error eL) (.ok (x :: xs)) =
            .ok (sortDesc (x :: xs)) := rfl
        rw [hres] at h
        obtain rfl := ((Except.ok.injEq _ _).mp h).symm
        exact sortDesc_strict [] (x :: xs) (by simp) hnf (by simp)
  · have hdesc := getWateringDataLocal_desc queue today00 nowEpoch hist hL
    rw [hL] at h
    rcases forecastRes with eF | f
    · rcases hist with _ | ⟨d, ds⟩
      · exact absurd h (by simp [composeWateringBase, removeOverlap])
      · have hres : composeWateringBase (.ok (d :: ds)) (.error eF) = .ok (d :: ds) := by
          simp [composeWateringBase]
        rw [hres] at h
        obtain rfl := ((Except.ok.injEq _ _).mp h).symm
        exact hdesc
    · have hnf := hnodup f rfl
      rcases hist with _ | ⟨d, ds⟩
      · rcases f with _ | ⟨x, xs⟩
        · exact absurd h (by simp [composeWateringBase, removeOverlap])
        · have hres : composeWateringBase (.ok []) (.ok (x :: xs)) =
              .ok (sortDesc (x :: xs)) := rfl
          rw [hres] at h
          obtain rfl := ((Except.ok.injEq _ _).mp h).symm
          exact sortDesc_strict [] (x :: xs) (by simp) hnf (by simp)
      · have hres : composeWateringBase (.ok (d :: ds)) (.ok f) =
            .ok (sortDesc ((d :: ds) ++ removeOverlap true (d :: ds) f)) := by
          simp [composeWateringBase]
        rw [hres] at h
        obtain rfl := ((Except.ok.injEq _ _).mp h).symm
        exact sortDesc_strict (d :: ds) (removeOverlap true (d :: ds) f) hdesc
          (removeOverlap_nodup (d :: ds) f hnf)
          (removeOverlap_cross (d :: ds) f)

/-- Witness for C1 at a concrete run: one local day (today) plus one
forecast day (tomorrow) compose to a strictly decreasing two-day series. -/
theorem c1_strict_order_witness :
    ([convertOMDay omDayEx, gapTodayBucket] : List WateringData).Chain'
      (fun a b => b.periodStartTime < a.periodStartTime) :=
  c1_strict_order gapQueue 0 86000 (.ok [convertOMDay omDayEx])
    (fun f hf => by
      obtain rfl : f = [convertOMDay omDayEx] := ((Except.ok.injEq _ _).mp hf).symm
      decide)
    [convertOMDay omDayEx, gapTodayBucket] (by with_unfolding_all rfl)

end OSWeather
